import Mathlib

/-!
Verification development for the `composer install` build step
(package `composer`, file `build.go`).

The Go source is shallowly embedded as executable Lean functions:

* Go `strings` helpers (`Split`, `TrimSpace`, `TrimPrefix`) are translated
  character-for-character as functions over `List Char`;
* the build step (`Build`, `runComposerGlobalIfRequired`, `runComposerInstall`,
  `runCheckPlatformReqs`) becomes a pure function from an input record —
  which carries the ambient environment, the prior layer metadata and one
  oracle result per subprocess invocation / filesystem probe — to a trace of
  side-effecting events paired with an `Except` result;
* layer metadata, which Go holds as `map[string]interface{}`, is modelled by
  `Option MetaVal` fields, where `MetaVal.other` stands for a present value
  that is not a string;
* a Go runtime panic (failed type assertion) is an explicit error value.

Filesystem errors on paths the source marks `// untested` (fs.Exists failure,
os.RemoveAll, fs.Copy, debug directory listings) are modelled as succeeding;
no claim concerns them.  SBOM generation, which sits between the install and
the diagnostics phases and does not interact with the cache logic, is likewise
modelled as succeeding.
-/

namespace Composer

/-! ## Go `strings` primitives over `List Char` -/

/-- Whitespace as recognised by Go's `unicode.IsSpace` restricted to ASCII
(space, tab, newline, vertical tab, form feed, carriage return). -/
def isSpace (c : Char) : Bool :=
  c = ' ' || c = '\t' || c = '\n' || c = '\x0b' || c = '\x0c' || c = '\r'

/-- Go `strings.Split(s, sep)` for a one-character separator: the list of
(possibly empty) chunks between occurrences of `sep`.  Always nonempty. -/
def goSplit (sep : Char) : List Char → List (List Char)
  | [] => [[]]
  | c :: rest =>
    if c = sep then [] :: goSplit sep rest
    else
      match goSplit sep rest with
      | t :: ts => (c :: t) :: ts
      | [] => [[c]]

/-- Drop leading whitespace (left half of Go `strings.TrimSpace`). -/
def trimLeftWs (l : List Char) : List Char := l.dropWhile isSpace

/-- Drop trailing whitespace (right half of Go `strings.TrimSpace`). -/
def trimRightWs (l : List Char) : List Char := (l.reverse.dropWhile isSpace).reverse

/-- Go `strings.TrimSpace`. -/
def trimSpace (l : List Char) : List Char := trimLeftWs (trimRightWs l)

/-- Go `strings.TrimPrefix`: remove `pre` when it is a prefix, else identity. -/
def trimPrefix (pre l : List Char) : List Char :=
  if pre.isPrefixOf l then l.drop pre.length else l

/-- Go `strconv.ParseBool`: the exact set of accepted literals. -/
def parseBool (s : String) : Option Bool :=
  if s = "1" ∨ s = "t" ∨ s = "T" ∨ s = "TRUE" ∨ s = "true" ∨ s = "True" then some true
  else if s = "0" ∨ s = "f" ∨ s = "F" ∨ s = "FALSE" ∨ s = "false" ∨ s = "False" then some false
  else none

/-- Go `filepath.Join` of two components, simplified to separator insertion
(the path-cleaning Go performs is irrelevant to every claim). -/
def joinPath (a b : String) : String := a ++ "/" ++ b

/-- Go `os.PathListSeparator` on the target platform (linux). -/
def pathListSeparator : String := ":"

/-! ## Constants (build.go and the buildpack's documented configuration) -/

/-- build.go line 24. -/
def runComposerInstallOnCacheEnv : String := "BP_RUN_COMPOSER_INSTALL"

/-- build.go line 25. -/
def opensslExtension : String := "openssl"

/-- Name of the cached packages layer.  The constant's definition site is
outside the provided sources; its value appears verbatim in the provided
integration test (`composer-packages`). -/
def ComposerPackagesLayerName : String := "composer-packages"

/-- Modelled from the spec: name of the isolated layer used by the optional
global-package pre-step (§4.6).  The defining constant is outside the provided
sources; no claim depends on its value. -/
def ComposerGlobalLayerName : String := "composer-global"

/-- Modelled from the spec: the deterministic autoloader suffix passed to the
`config` sub-command (§4.3 "fix a deterministic autoloader suffix").  The
defining constant is outside the provided sources; no claim depends on its
value, it only occurs opaquely inside an argument list. -/
def ComposerAutoloaderSuffix : String := "autoloader-suffix-value"

/-! ## Data model -/

/-- A value stored in the untyped layer-metadata map: either a string or a
value of some other dynamic type. -/
inductive MetaVal where
  | str (s : String)
  | other
deriving DecidableEq, Repr

/-- The two metadata keys owned by this component (`stack`,
`composer-lock-sha`); `none` models an absent key. -/
structure Metadata where
  stack : Option MetaVal
  composerLockSha : Option MetaVal
deriving DecidableEq, Repr

/-- A packit layer as far as this component reads and writes it. -/
structure Layer where
  path : String
  launch : Bool
  build : Bool
  cache : Bool
  metadata : Metadata
deriving DecidableEq, Repr

/-- Result of a subprocess that failed: either an `exec.ExitError` carrying
the exit code, or some other error. -/
inductive ExecErr where
  | exit (code : Int)
  | nonExit
deriving DecidableEq, Repr

/-- Errors the build step can return (or a Go runtime panic). -/
inductive RunError where
  | goPanic
  | execFailed (e : ExecErr)
  | parseBoolFailed (envVar raw : String)
deriving DecidableEq, Repr

/-- Which composer sub-command an execution runs. -/
inductive ExecKind where
  | config
  | install
  | globalRequire
  | checkPlatformReqs
deriving DecidableEq, Repr

/-- A `pexec.Execution`: argument list, working directory and the full
environment (modelled as key/value pairs; Go appends `"K=V"` strings to
`os.Environ()`). -/
structure Execution where
  args : List String
  dir : String
  env : List (String × String)
deriving DecidableEq, Repr

/-- Observable side effects of the build step, in order of occurrence. -/
inductive Event where
  | resetLayer (name : String)
  | exec (kind : ExecKind) (e : Execution)
  | removeDir (p : String)
  | copyDir (src dst : String)
  | writeFile (p content : String)
deriving DecidableEq, Repr

/-! ## runComposerInstall (build.go lines 221-429) -/

/-- Inputs of `runComposerInstall`: the deterministic data plus one oracle
per subprocess invocation and filesystem probe. -/
structure InstallInputs where
  metadata : Metadata
  layerPath : String
  currentStack : String
  lockChecksum : String
  composerJsonPath : String
  workingDir : String
  workspaceVendorDir : String
  phpIniPath : String
  path : String
  ambientEnv : List (String × String)
  bpRunComposerInstall : Option String
  launch : Bool
  build : Bool
  workspaceVendorDirExists : Bool
  configExecResult : Option ExecErr
  installExecResult : Option ExecErr
  installOptions : List String
deriving DecidableEq, Repr

structure InstallResult where
  layer : Layer
  cacheHit : Bool
deriving DecidableEq, Repr

/-- The cache-hit test, build.go lines 256-257:
`(shaOk && cachedSHA == composerLockChecksum) && (stackOk && stack.(string) == context.Stack)`.
The comma-ok type assertion on `composer-lock-sha` maps absent and wrong-typed
values to `false`; for `stack` the wrong-typed case is unreachable here
because line 252 has already panicked on it (see `runComposerInstall`). -/
def cacheHitCond (m : Metadata) (checksum curStack : String) : Bool :=
  (match m.composerLockSha with
   | some (MetaVal.str s) => s == checksum
   | _ => false)
  && (match m.stack with
      | some (MetaVal.str s) => s == curStack
      | _ => false)

/-- Environment of the `config` and `install` executions (build.go lines
303-310, 363-369, 394-400): ambient environment plus the explicit keys, in
source order.  The two call sites differ only in `COMPOSER_VENDOR_DIR`. -/
def installPhaseEnv (i : InstallInputs) (vendorDirValue : String) : List (String × String) :=
  i.ambientEnv ++
    [("COMPOSER_NO_INTERACTION", "1"),
     ("COMPOSER", i.composerJsonPath),
     ("COMPOSER_HOME", joinPath i.layerPath ".composer"),
     ("COMPOSER_VENDOR_DIR", vendorDirValue),
     ("PHPRC", i.phpIniPath),
     ("PATH", i.path)]

/-- The `composer install` execution (identical at both call sites,
build.go lines 296-313 and 387-404). -/
def installExecSpec (i : InstallInputs) : Execution :=
  { args := "install" :: i.installOptions
    dir := i.workingDir
    env := installPhaseEnv i i.workspaceVendorDir }

/-- The `composer config autoloader-suffix` execution (build.go lines
357-373); `COMPOSER_VENDOR_DIR` is pinned to the in-layer default. -/
def configExecSpec (i : InstallInputs) : Execution :=
  { args := ["config", "autoloader-suffix", ComposerAutoloaderSuffix]
    dir := i.layerPath
    env := installPhaseEnv i "vendor" }

/-- build.go lines 286-293: `BP_RUN_COMPOSER_INSTALL` absent defaults to
`true`; present is parsed by `strconv.ParseBool`, a parse failure is wrapped
in an error naming the variable. -/
def runOnCacheDecision (v : Option String) : Except RunError Bool :=
  match v with
  | none => Except.ok true
  | some s =>
    match parseBool s with
    | some b => Except.ok b
    | none => Except.error (RunError.parseBoolFailed runComposerInstallOnCacheEnv s)

/-- build.go lines 320-331: delete a pre-existing workspace vendor directory,
then copy the layer's vendor directory over it. -/
def syncVendorEvents (i : InstallInputs) : List Event :=
  (if i.workspaceVendorDirExists then [Event.removeDir i.workspaceVendorDir] else [])
    ++ [Event.copyDir (joinPath i.layerPath "vendor") i.workspaceVendorDir]

/-- The layer returned on the cache-hit path (build.go lines 261-263): flags
refreshed from the plan merge, `cache` forced `true`, metadata untouched. -/
def hitLayer (i : InstallInputs) : Layer :=
  { path := i.layerPath, launch := i.launch, build := i.build, cache := true
    metadata := i.metadata }

/-- The layer returned on the fresh-build path (build.go lines 338-355):
reset, flags from the plan merge, `cache := true`, metadata stamped with the
current stack and checksum. -/
def freshLayer (i : InstallInputs) : Layer :=
  { path := i.layerPath, launch := i.launch, build := i.build, cache := true
    metadata := { stack := some (MetaVal.str i.currentStack)
                  composerLockSha := some (MetaVal.str i.lockChecksum) } }

/-- Cache-hit branch of `runComposerInstall` (build.go lines 258-333). -/
def cacheHitBranch (i : InstallInputs) : List Event × Except RunError InstallResult :=
  match runOnCacheDecision i.bpRunComposerInstall with
  | Except.error err => ([], Except.error err)
  | Except.ok true =>
    match i.installExecResult with
    | some e =>
      ([Event.exec ExecKind.install (installExecSpec i)],
       Except.error (RunError.execFailed e))
    | none =>
      (Event.exec ExecKind.install (installExecSpec i) :: syncVendorEvents i,
       Except.ok { layer := hitLayer i, cacheHit := true })
  | Except.ok false =>
    (syncVendorEvents i, Except.ok { layer := hitLayer i, cacheHit := true })

/-- Fresh-build branch of `runComposerInstall` (build.go lines 336-428):
reset the layer, run `config`, run `install`, copy the workspace vendor
directory into the layer. -/
def freshBranch (i : InstallInputs) : List Event × Except RunError InstallResult :=
  let ev0 := [Event.resetLayer ComposerPackagesLayerName,
              Event.exec ExecKind.config (configExecSpec i)]
  match i.configExecResult with
  | some e => (ev0, Except.error (RunError.execFailed e))
  | none =>
    let ev1 := ev0 ++ [Event.exec ExecKind.install (installExecSpec i)]
    match i.installExecResult with
    | some e => (ev1, Except.error (RunError.execFailed e))
    | none =>
      (ev1 ++ [Event.copyDir i.workspaceVendorDir (joinPath i.layerPath "vendor")],
       Except.ok { layer := freshLayer i, cacheHit := false })

/-- build.go lines 221-429.  Line 250 looks up `stack` with map comma-ok;
when the key is present, line 252 evaluates the unchecked type assertion
`stack.(string)` (as the eagerly evaluated argument of a debug log), which
panics for a present non-string value.  Otherwise the cache-hit condition of
lines 256-257 selects the branch. -/
def runComposerInstall (i : InstallInputs) : List Event × Except RunError InstallResult :=
  match i.metadata.stack with
  | some MetaVal.other => ([], Except.error RunError.goPanic)
  | _ =>
    if cacheHitCond i.metadata i.lockChecksum i.currentStack then cacheHitBranch i
    else freshBranch i

/-! ## runComposerGlobalIfRequired (build.go lines 155-213) -/

structure GlobalInputs where
  bpComposerInstallGlobal : Option String
  globalLayerPath : String
  phpIniPath : String
  path : String
  ambientEnv : List (String × String)
  execResult : Option ExecErr
deriving DecidableEq, Repr

/-- Environment of the `global require` execution (build.go lines 184-190):
`COMPOSER_HOME` is the global layer path itself. -/
def globalEnv (g : GlobalInputs) : List (String × String) :=
  g.ambientEnv ++
    [("COMPOSER_NO_INTERACTION", "1"),
     ("COMPOSER_HOME", g.globalLayerPath),
     ("PHPRC", g.phpIniPath),
     ("COMPOSER_VENDOR_DIR", "vendor"),
     ("PATH", g.path)]

/-- build.go lines 155-213: no-op returning `""` when
`BP_COMPOSER_INSTALL_GLOBAL` is absent; otherwise reset the global layer and
run `composer global require --no-progress <packages...>`, returning the
layer's `vendor/bin` directory. -/
def runComposerGlobalIfRequired (g : GlobalInputs) : List Event × Except RunError String :=
  match g.bpComposerInstallGlobal with
  | none => ([], Except.ok "")
  | some pkgs =>
    let globalPackages := (goSplit ' ' pkgs.data).map String.mk
    let ex : Execution :=
      { args := ["global", "require", "--no-progress"] ++ globalPackages
        dir := g.globalLayerPath
        env := globalEnv g }
    let evs := [Event.resetLayer ComposerGlobalLayerName,
                Event.exec ExecKind.globalRequire ex]
    match g.execResult with
    | some e => (evs, Except.error (RunError.execFailed e))
    | none => (evs, Except.ok (joinPath (joinPath g.globalLayerPath "vendor") "bin"))

/-! ## runCheckPlatformReqs (build.go lines 472-528) -/

/-- Per-line space chunks, build.go line 504:
`strings.Split(strings.TrimSpace(line), " ")`. -/
def lineChunks (line : List Char) : List (List Char) :=
  goSplit ' ' (trimSpace line)

/-- build.go line 505:
`strings.TrimPrefix(strings.TrimSpace(chunks[0]), "ext-")`. -/
def extensionName (line : List Char) : List Char :=
  trimPrefix "ext-".data (trimSpace ((lineChunks line).headD []))

/-- build.go line 506: `strings.TrimSpace(chunks[len(chunks)-1])`. -/
def extensionStatus (line : List Char) : List Char :=
  trimSpace ((lineChunks line).getLastD [])

/-- build.go lines 507-509: the line contributes its (prefix-stripped) name
exactly when the name is neither interpreter pseudo-requirement and the
status token is the literal `missing`. -/
def missingExtension (line : List Char) : Option (List Char) :=
  if extensionName line ≠ "php".data ∧ extensionName line ≠ "php-64bit".data
      ∧ extensionStatus line = "missing".data
  then some (extensionName line) else none

/-- build.go lines 502-510: the report starts with the baseline openssl entry
and appends every missing extension, in line order. -/
def parseExtensions (output : String) : List String :=
  opensslExtension ::
    ((goSplit '\n' output.data).filterMap fun line =>
      (missingExtension line).map String.mk)

/-- build.go lines 514-518: one `extension = <name>.so` directive per line. -/
def extensionsIni (exts : List String) : String :=
  String.join (exts.map fun e => "extension = " ++ e ++ ".so\n")

structure CheckInputs where
  workingDir : String
  phpIniPath : String
  path : String
  ambientEnv : List (String × String)
  execResult : Option ExecErr
  capturedOutput : String
deriving DecidableEq, Repr

structure CheckResult where
  extensions : List String
  iniPath : String
  iniContent : String
deriving DecidableEq, Repr

/-- Environment of the `check-platform-reqs` execution (build.go lines
480-484): only the non-interactive flag, `PHPRC` and `PATH` are appended. -/
def checkEnv (c : CheckInputs) : List (String × String) :=
  c.ambientEnv ++
    [("COMPOSER_NO_INTERACTION", "1"),
     ("PHPRC", c.phpIniPath),
     ("PATH", c.path)]

/-- The report-and-write tail of `runCheckPlatformReqs` (build.go lines
502-527), shared by the success and exit-code-2 paths. -/
def checkReport (c : CheckInputs) (evs : List Event) : List Event × Except RunError CheckResult :=
  let exts := parseExtensions c.capturedOutput
  let ini := extensionsIni exts
  let iniPath := joinPath (joinPath c.workingDir ".php.ini.d") "composer-extensions.ini"
  (evs ++ [Event.writeFile iniPath ini],
   Except.ok { extensions := exts, iniPath := iniPath, iniContent := ini })

/-- build.go lines 472-528.  Lines 489-495: a failure that is an
`exec.ExitError` with exit code 2 is not treated as an error; any other
failure is returned. -/
def runCheckPlatformReqs (c : CheckInputs) : List Event × Except RunError CheckResult :=
  let ex : Execution :=
    { args := ["check-platform-reqs"], dir := c.workingDir, env := checkEnv c }
  let evs := [Event.exec ExecKind.checkPlatformReqs ex]
  match c.execResult with
  | some err =>
    if err = ExecErr.exit 2 then checkReport c evs
    else (evs, Except.error (RunError.execFailed err))
  | none => checkReport c evs

/-! ## Build (build.go lines 55-144) -/

structure BuildInputs where
  bpComposerInstallGlobal : Option String
  globalLayerPath : String
  globalExecResult : Option ExecErr
  path : String
  phpIniPath : String
  workingDir : String
  composerVendorDirEnv : Option String
  metadata : Metadata
  layerPath : String
  currentStack : String
  lockChecksum : String
  composerJsonPath : String
  ambientEnv : List (String × String)
  bpRunComposerInstall : Option String
  launch : Bool
  build : Bool
  workspaceVendorDirExists : Bool
  configExecResult : Option ExecErr
  installExecResult : Option ExecErr
  installOptions : List String
  checkExecResult : Option ExecErr
  checkOutput : String
deriving DecidableEq, Repr

structure BuildResult where
  layers : List Layer
  extensions : List String
  iniContent : String
deriving DecidableEq, Repr

def globalInputsOf (b : BuildInputs) : GlobalInputs :=
  { bpComposerInstallGlobal := b.bpComposerInstallGlobal
    globalLayerPath := b.globalLayerPath
    phpIniPath := b.phpIniPath
    path := b.path
    ambientEnv := b.ambientEnv
    execResult := b.globalExecResult }

/-- build.go lines 79-84: prefix the global bin directory onto `PATH` when
`runComposerGlobalIfRequired` returned one. -/
def effectivePath (b : BuildInputs) (composerGlobalBin : String) : String :=
  if composerGlobalBin ≠ "" then composerGlobalBin ++ pathListSeparator ++ b.path
  else b.path

/-- build.go lines 86-90: the workspace vendor directory, relocated by the
`COMPOSER_VENDOR_DIR` environment variable when set. -/
def workspaceVendorDirOf (b : BuildInputs) : String :=
  joinPath b.workingDir (b.composerVendorDirEnv.getD "vendor")

def installInputsOf (b : BuildInputs) (path : String) : InstallInputs :=
  { metadata := b.metadata
    layerPath := b.layerPath
    currentStack := b.currentStack
    lockChecksum := b.lockChecksum
    composerJsonPath := b.composerJsonPath
    workingDir := b.workingDir
    workspaceVendorDir := workspaceVendorDirOf b
    phpIniPath := b.phpIniPath
    path := path
    ambientEnv := b.ambientEnv
    bpRunComposerInstall := b.bpRunComposerInstall
    launch := b.launch
    build := b.build
    workspaceVendorDirExists := b.workspaceVendorDirExists
    configExecResult := b.configExecResult
    installExecResult := b.installExecResult
    installOptions := b.installOptions }

def checkInputsOf (b : BuildInputs) (path : String) : CheckInputs :=
  { workingDir := b.workingDir
    phpIniPath := b.phpIniPath
    path := path
    ambientEnv := b.ambientEnv
    execResult := b.checkExecResult
    capturedOutput := b.checkOutput }

/-- build.go lines 55-144: php.ini setup (path taken as input), optional
global install, `PATH` composition, `runComposerInstall`, then
`runCheckPlatformReqs`; the first failure aborts with no layers. -/
def Build (b : BuildInputs) : List Event × Except RunError BuildResult :=
  match runComposerGlobalIfRequired (globalInputsOf b) with
  | (gEvents, Except.error e) => (gEvents, Except.error e)
  | (gEvents, Except.ok composerGlobalBin) =>
    match runComposerInstall (installInputsOf b (effectivePath b composerGlobalBin)) with
    | (iEvents, Except.error e) => (gEvents ++ iEvents, Except.error e)
    | (iEvents, Except.ok ir) =>
      match runCheckPlatformReqs (checkInputsOf b (effectivePath b composerGlobalBin)) with
      | (cEvents, Except.error e) => (gEvents ++ iEvents ++ cEvents, Except.error e)
      | (cEvents, Except.ok cr) =>
        (gEvents ++ iEvents ++ cEvents,
         Except.ok { layers := [ir.layer], extensions := cr.extensions
                     iniContent := cr.iniContent })

/-! ## Claim-side token vocabulary

The claims speak of "whitespace-delimited tokens" of a line.  These two
definitions follow the claims' words, independently of the embedding above:
the first token is the maximal non-whitespace run after leading whitespace,
the last token is the maximal non-whitespace run before trailing whitespace
(`none` when the line holds no token at all). -/

def firstWsToken (l : List Char) : List Char :=
  (l.dropWhile isSpace).takeWhile (fun c => !(isSpace c))

def lastWsToken (l : List Char) : Option (List Char) :=
  let t := ((l.reverse.dropWhile isSpace).takeWhile (fun c => !(isSpace c))).reverse
  if t = [] then none else some t

/-! ## Concrete sample inputs (used by witnesses and counterexamples) -/

/-- A cache-hit input: prior metadata matching the current checksum and
stack, a pre-existing workspace vendor directory, all subprocesses
succeeding, override unset. -/
def sampleHitInputs : InstallInputs :=
  { metadata := { stack := some (MetaVal.str "stack-a")
                  composerLockSha := some (MetaVal.str "sha-1") }
    layerPath := "/layers/composer-packages"
    currentStack := "stack-a"
    lockChecksum := "sha-1"
    composerJsonPath := "/workspace/composer.json"
    workingDir := "/workspace"
    workspaceVendorDir := "/workspace/vendor"
    phpIniPath := "/layers/php-ini/composer-php.ini"
    path := "/usr/bin"
    ambientEnv := [("HOME", "/root")]
    bpRunComposerInstall := none
    launch := true
    build := false
    workspaceVendorDirExists := true
    configExecResult := none
    installExecResult := none
    installOptions := ["--no-progress", "--no-dev"] }

/-- The cache-hit input with the reinstall override set to `"false"`. -/
def sampleOverrideFalseInputs : InstallInputs :=
  { sampleHitInputs with bpRunComposerInstall := some "false" }

/-- A fresh-build input: no prior metadata. -/
def sampleFreshInputs : InstallInputs :=
  { sampleHitInputs with metadata := { stack := none, composerLockSha := none } }

/-- Diagnostic inputs whose subprocess exited with code 2 and reported one
missing extension. -/
def sampleCheckInputs : CheckInputs :=
  { workingDir := "/workspace"
    phpIniPath := "/layers/php-ini/composer-php.ini"
    path := "/usr/bin"
    ambientEnv := []
    execResult := some (ExecErr.exit 2)
    capturedOutput := "ext-mbstring : missing" }

/-- A full build input: no prior metadata (fresh build), the reinstall
override set to the invalid boolean `"maybe"`, no global packages, every
subprocess succeeding, empty diagnostic output. -/
def sampleMaybeBuildInputs : BuildInputs :=
  { bpComposerInstallGlobal := none
    globalLayerPath := "/layers/composer-global"
    globalExecResult := none
    path := "/usr/bin"
    phpIniPath := "/layers/php-ini/composer-php.ini"
    workingDir := "/workspace"
    composerVendorDirEnv := none
    metadata := { stack := none, composerLockSha := none }
    layerPath := "/layers/composer-packages"
    currentStack := "stack-a"
    lockChecksum := "sha-1"
    composerJsonPath := "/workspace/composer.json"
    ambientEnv := []
    bpRunComposerInstall := some "maybe"
    launch := true
    build := false
    workspaceVendorDirExists := false
    configExecResult := none
    installExecResult := none
    installOptions := ["--no-progress", "--no-dev"]
    checkExecResult := none
    checkOutput := "" }

/-- Predicate picking out install-subcommand executions in an event trace. -/
def isInstallExec : Event → Bool
  | Event.exec ExecKind.install _ => true
  | _ => false

/-! ## List lemmas for the tokenizers -/

theorem takeWhile_append_of_all {α : Type _} {p : α → Bool} {xs : List α} (ys : List α)
    (h : ∀ a ∈ xs, p a = true) :
    (xs ++ ys).takeWhile p = xs ++ ys.takeWhile p := by
  have hx : xs.takeWhile p = xs := List.takeWhile_eq_self_iff.mpr h
  rw [List.takeWhile_append, hx, if_pos rfl]

theorem takeWhile_append_of_not_all {α : Type _} {p : α → Bool} {xs : List α} (ys : List α)
    (h : ¬ ∀ a ∈ xs, p a = true) :
    (xs ++ ys).takeWhile p = xs.takeWhile p := by
  rw [List.takeWhile_append, if_neg]
  intro hlen
  have heq : xs.takeWhile p = xs := (List.takeWhile_sublist p).eq_of_length hlen
  exact h fun a ha => List.mem_takeWhile_imp (heq ▸ ha)

theorem takeWhile_eq_nil_of_all_not {α : Type _} {p : α → Bool} :
    ∀ {X : List α}, (∀ a ∈ X, p a = false) → X.takeWhile p = [] := by
  intro X h
  cases X with
  | nil => rfl
  | cons x xs =>
    rw [List.takeWhile_cons, if_neg]
    simp [h x (List.mem_cons_self x xs)]

theorem takeWhile_append_nil {α : Type _} {p : α → Bool} {A B : List α}
    (hA : A.takeWhile p = []) (hB : B.takeWhile p = []) :
    (A ++ B).takeWhile p = [] := by
  cases A with
  | nil => simpa using hB
  | cons a A =>
    rw [List.takeWhile_cons] at hA
    by_cases hp : p a = true
    · rw [if_pos hp] at hA
      exact absurd hA (List.cons_ne_nil _ _)
    · rw [List.cons_append, List.takeWhile_cons, if_neg hp]

theorem dropWhile_head_false {α : Type _} {p : α → Bool} :
    ∀ {l : List α} {c : α} {rest : List α}, l.dropWhile p = c :: rest → p c = false := by
  intro l
  induction l with
  | nil => intro c rest h; simp at h
  | cons x xs ih =>
    intro c rest h
    rw [List.dropWhile_cons] at h
    by_cases hp : p x = true
    · rw [if_pos hp] at h
      exact ih h
    · rw [if_neg hp] at h
      cases h
      simpa using hp

theorem getLastD_irrel {α : Type _} : ∀ {l : List α}, l ≠ [] → ∀ (a b : α),
    l.getLastD a = l.getLastD b := by
  intro l h a b
  cases l with
  | nil => exact absurd rfl h
  | cons x xs => rw [List.getLastD_cons, List.getLastD_cons]

/-! ## Lemmas about `goSplit` -/

theorem goSplit_cons_sep (sep : Char) (r : List Char) :
    goSplit sep (sep :: r) = [] :: goSplit sep r := by
  conv_lhs => unfold goSplit
  rw [if_pos rfl]

theorem goSplit_cons_ne (sep : Char) {c : Char} (r : List Char) (hc : ¬ c = sep) :
    goSplit sep (c :: r) =
      match goSplit sep r with
      | t :: ts => (c :: t) :: ts
      | [] => [[c]] := by
  conv_lhs => unfold goSplit
  rw [if_neg hc]

theorem goSplit_ne_nil (sep : Char) : ∀ (s : List Char), goSplit sep s ≠ [] := by
  intro s
  induction s with
  | nil => simp [goSplit]
  | cons c r ih =>
    by_cases hc : c = sep
    · subst hc
      rw [goSplit_cons_sep]
      simp
    · rw [goSplit_cons_ne sep r hc]
      rcases h : goSplit sep r with _ | ⟨t, ts⟩
      · simp
      · simp

theorem goSplit_no_sep {sep : Char} : ∀ {s : List Char},
    (∀ c ∈ s, c ≠ sep) → goSplit sep s = [s] := by
  intro s
  induction s with
  | nil => intro _; rfl
  | cons c r ih =>
    intro h
    have hc : ¬ c = sep := h c (List.mem_cons_self c r)
    rw [goSplit_cons_ne sep r hc, ih fun a ha => h a (List.mem_cons_of_mem _ ha)]

theorem goSplit_eq_singleton {sep : Char} : ∀ {s t : List Char},
    goSplit sep s = [t] → t = s ∧ ∀ c ∈ s, c ≠ sep := by
  intro s
  induction s with
  | nil =>
    intro t h
    have ht : t = [] := by
      have : goSplit sep [] = [[]] := rfl
      rw [this] at h
      exact (List.cons.injEq _ _ _ _ ▸ h).1.symm
    exact ⟨ht, by simp⟩
  | cons c r ih =>
    intro t h
    by_cases hc : c = sep
    · exfalso
      rw [hc, goSplit_cons_sep] at h
      have h2 : goSplit sep r = [] := (List.cons.injEq _ _ _ _ ▸ h).2
      exact goSplit_ne_nil sep r h2
    · rw [goSplit_cons_ne sep r hc] at h
      rcases hsp : goSplit sep r with _ | ⟨t1, ts1⟩
      · exact absurd hsp (goSplit_ne_nil sep r)
      · rw [hsp] at h
        have h1 : c :: t1 = t := (List.cons.injEq _ _ _ _ ▸ h).1
        have h2 : ts1 = [] := (List.cons.injEq _ _ _ _ ▸ h).2
        subst h2
        obtain ⟨ht1, hns⟩ := ih hsp
        constructor
        · rw [← h1, ht1]
        · intro a ha
          rcases List.mem_cons.mp ha with rfl | ha2
          · exact hc
          · exact hns a ha2

theorem goSplit_getLastD (sep : Char) : ∀ (s : List Char),
    (goSplit sep s).getLastD [] = (s.reverse.takeWhile fun c => c != sep).reverse := by
  intro s
  induction s with
  | nil => rfl
  | cons c r ih =>
    by_cases hc : c = sep
    · rw [hc, goSplit_cons_sep, List.getLastD_cons, ih, List.reverse_cons]
      by_cases hall : ∀ a ∈ r.reverse, (a != sep) = true
      · rw [takeWhile_append_of_all _ hall]
        have h1 : List.takeWhile (fun c => c != sep) [sep] = [] := by
          rw [List.takeWhile_cons, if_neg]
          simp
        rw [h1, List.append_nil, List.takeWhile_eq_self_iff.mpr hall]
      · rw [takeWhile_append_of_not_all _ hall]
    · rw [goSplit_cons_ne sep r hc]
      rcases hsp : goSplit sep r with _ | ⟨t, ts⟩
      · exact absurd hsp (goSplit_ne_nil sep r)
      · cases ts with
        | nil =>
          obtain ⟨ht, hns⟩ := goSplit_eq_singleton hsp
          subst ht
          rw [List.reverse_cons, takeWhile_append_of_all]
          · rw [List.takeWhile_cons, if_pos (by simpa using hc), List.takeWhile_nil,
              List.reverse_append, List.reverse_reverse]
            rfl
          · intro a ha
            simpa using hns a (List.mem_reverse.mp ha)
        | cons t2 ts2 =>
          have hlhs : (((c :: t) :: t2 :: ts2).getLastD []) = (goSplit sep r).getLastD [] :=
            calc ((c :: t) :: t2 :: ts2).getLastD []
                = (t2 :: ts2).getLastD (c :: t) := List.getLastD_cons _ _ _
              _ = (t2 :: ts2).getLastD t := getLastD_irrel (List.cons_ne_nil _ _) _ _
              _ = (t :: t2 :: ts2).getLastD [] := (List.getLastD_cons _ _ _).symm
              _ = (goSplit sep r).getLastD [] := by rw [hsp]
          rw [hlhs, ih, List.reverse_cons, takeWhile_append_of_not_all]
          intro hall
          have hns : ∀ a ∈ r, a ≠ sep := fun a ha => by
            simpa using hall a (List.mem_reverse.mpr ha)
          rw [goSplit_no_sep hns] at hsp
          simp at hsp

/-! ## Bridging the embedded parser and the claims' token vocabulary -/

/-- If the embedded status computation (trim, split on single spaces, last
chunk, trim) yields the literal `missing`, then the line's last
whitespace-delimited token is `missing` as well. -/
theorem status_missing_lastWsToken {line : List Char}
    (h : extensionStatus line = "missing".data) :
    lastWsToken line = some "missing".data := by
  have hm_ne : ("missing".data : List Char) ≠ [] := by decide
  have hm_nosp : ∀ a ∈ ("missing".data : List Char), isSpace a = false := by decide
  have h1 : trimSpace (((trimSpace line).reverse.takeWhile fun c => c != ' ').reverse)
      = "missing".data := by
    unfold extensionStatus lineChunks at h
    rw [goSplit_getLastD] at h
    exact h
  by_cases htz : trimSpace line = []
  · rw [htz] at h1
    exact absurd h1 (by decide)
  set k : List Char := (trimSpace line).reverse.takeWhile (fun c => c != ' ') with hkdef
  have hw_split : (trimRightWs line).takeWhile isSpace ++ (trimRightWs line).dropWhile isSpace
      = trimRightWs line := List.takeWhile_append_dropWhile _ _
  have hv : line.reverse.dropWhile isSpace
      = (trimSpace line).reverse ++ ((trimRightWs line).takeWhile isSpace).reverse := by
    have h2 : (trimRightWs line).reverse = line.reverse.dropWhile isSpace := by
      unfold trimRightWs
      rw [List.reverse_reverse]
    rw [← h2]
    conv_lhs => rw [← hw_split]
    rw [List.reverse_append]
    rfl
  obtain ⟨c, u2, hu⟩ : ∃ c u2, (trimSpace line).reverse = c :: u2 := by
    rcases hcase : (trimSpace line).reverse with _ | ⟨c, u2⟩
    · exact absurd (List.reverse_eq_nil_iff.mp hcase) htz
    · exact ⟨c, u2, rfl⟩
  have hcsp : isSpace c = false := by
    have hveq : line.reverse.dropWhile isSpace
        = c :: (u2 ++ ((trimRightWs line).takeWhile isSpace).reverse) := by
      rw [hv, hu, List.cons_append]
    exact dropWhile_head_false hveq
  have hcne : (c != ' ') = true := by
    rw [bne_iff_ne]
    intro hceq
    rw [hceq] at hcsp
    simp [isSpace] at hcsp
  have hkcons : k = c :: (u2.takeWhile fun x => x != ' ') := by
    rw [hkdef, hu, List.takeWhile_cons, if_pos hcne]
  have hks : k.dropWhile isSpace = k := by
    rw [hkcons, List.dropWhile_cons, if_neg (by simp [hcsp])]
  have hd : trimSpace (k.reverse) = (k.reverse).dropWhile isSpace := by
    show trimLeftWs (trimRightWs (k.reverse)) = (k.reverse).dropWhile isSpace
    unfold trimRightWs
    rw [List.reverse_reverse, hks]
    rfl
  have hm_eq : (k.reverse).dropWhile isSpace = "missing".data := hd.symm.trans h1
  have he : k.reverse = ((k.reverse).takeWhile isSpace) ++ "missing".data := by
    conv_lhs => rw [← List.takeWhile_append_dropWhile (p := isSpace) (l := k.reverse)]
    rw [hm_eq]
  have hks2 : k = "missing".data.reverse ++ ((k.reverse).takeWhile isSpace).reverse := by
    conv_lhs => rw [← List.reverse_reverse k, he]
    rw [List.reverse_append]
  have hf : (trimSpace line).reverse
      = k ++ ((trimSpace line).reverse.dropWhile fun c => c != ' ') :=
    (List.takeWhile_append_dropWhile _ _).symm
  have hvfull : line.reverse.dropWhile isSpace
      = "missing".data.reverse ++ (((k.reverse).takeWhile isSpace).reverse
          ++ (((trimSpace line).reverse.dropWhile fun c => c != ' ')
              ++ ((trimRightWs line).takeWhile isSpace).reverse)) := by
    rw [hv]
    conv_lhs => rw [hf, hks2]
    simp [List.append_assoc]
  have hws2 : (((k.reverse).takeWhile isSpace).reverse).takeWhile (fun c => !(isSpace c))
      = [] := by
    apply takeWhile_eq_nil_of_all_not
    intro a ha
    have haa : isSpace a = true := List.mem_takeWhile_imp (List.mem_reverse.mp ha)
    simp [haa]
  have hrest : (((trimSpace line).reverse.dropWhile fun c => c != ' ').takeWhile
      fun c => !(isSpace c)) = [] := by
    rcases hrc : ((trimSpace line).reverse.dropWhile fun c => c != ' ') with _ | ⟨c2, r2⟩
    · rfl
    · have hc2 : (c2 != ' ') = false := dropWhile_head_false (p := fun c => c != ' ') hrc
      have hc2e : c2 = ' ' := by simpa using hc2
      have hc2s : isSpace c2 = true := by
        rw [hc2e]
        decide
      rw [List.takeWhile_cons, if_neg (by simp [hc2s])]
  have hws0 : ((((trimRightWs line).takeWhile isSpace).reverse).takeWhile
      fun c => !(isSpace c)) = [] := by
    apply takeWhile_eq_nil_of_all_not
    intro a ha
    have haa : isSpace a = true := List.mem_takeWhile_imp (List.mem_reverse.mp ha)
    simp [haa]
  have htake : (line.reverse.dropWhile isSpace).takeWhile (fun c => !(isSpace c))
      = "missing".data.reverse := by
    rw [hvfull, takeWhile_append_of_all]
    · rw [takeWhile_append_nil hws2 (takeWhile_append_nil hrest hws0), List.append_nil]
    · intro a ha
      have haa : isSpace a = false := hm_nosp a (List.mem_reverse.mp ha)
      simp [haa]
  simp only [lastWsToken]
  rw [htake, List.reverse_reverse, if_neg hm_ne]

/-- When no line's status computes to `missing`, the report is just the
baseline entry. -/
theorem parseExtensions_baseline {output : String}
    (h : ∀ line ∈ goSplit '\n' output.data, lastWsToken line ≠ some "missing".data) :
    parseExtensions output = [opensslExtension] := by
  have hnil : ((goSplit '\n' output.data).filterMap fun line =>
      (missingExtension line).map String.mk) = [] := by
    rw [List.filterMap_eq_nil_iff]
    intro line hline
    unfold missingExtension
    split
    · next hcond => exact absurd (status_missing_lastWsToken hcond.2.2) (h line hline)
    · rfl
  unfold parseExtensions
  rw [hnil]

/-! ## Branch selection in `runComposerInstall` -/

theorem runCheckPlatformReqs_some (c : CheckInputs) (e : ExecErr)
    (h : c.execResult = some e) :
    runCheckPlatformReqs c
      = (if e = ExecErr.exit 2
         then checkReport c [Event.exec ExecKind.checkPlatformReqs
                { args := ["check-platform-reqs"], dir := c.workingDir, env := checkEnv c }]
         else ([Event.exec ExecKind.checkPlatformReqs
                 { args := ["check-platform-reqs"], dir := c.workingDir, env := checkEnv c }],
               Except.error (RunError.execFailed e))) := by
  unfold runCheckPlatformReqs
  rw [h]

theorem runOnCacheDecision_some (s : String) :
    runOnCacheDecision (some s)
      = (match parseBool s with
         | some b => Except.ok b
         | none => Except.error (RunError.parseBoolFailed runComposerInstallOnCacheEnv s)) :=
  rfl

theorem runComposerInstall_of_hit (i : InstallInputs)
    (hwt : i.metadata.stack ≠ some MetaVal.other)
    (hc : cacheHitCond i.metadata i.lockChecksum i.currentStack = true) :
    runComposerInstall i = cacheHitBranch i := by
  unfold runComposerInstall
  split
  · next heq => exact absurd heq hwt
  · rw [if_pos hc]

theorem runComposerInstall_of_fresh (i : InstallInputs)
    (hwt : i.metadata.stack ≠ some MetaVal.other)
    (hc : cacheHitCond i.metadata i.lockChecksum i.currentStack = false) :
    runComposerInstall i = freshBranch i := by
  unfold runComposerInstall
  split
  · next heq => exact absurd heq hwt
  · rw [if_neg (by simp [hc])]

theorem cacheHitCond_iff (m : Metadata) (ck st : String) :
    cacheHitCond m ck st = true ↔
      m.composerLockSha = some (MetaVal.str ck) ∧ m.stack = some (MetaVal.str st) := by
  obtain ⟨stack, sha⟩ := m
  unfold cacheHitCond
  dsimp only
  cases sha with
  | none => simp
  | some mv =>
    cases mv with
    | str s =>
      cases stack with
      | none => simp
      | some mv2 =>
        cases mv2 with
        | str s2 => simp [Bool.and_eq_true, beq_iff_eq]
        | other => simp
    | other => simp

theorem mem_syncVendorEvents (i : InstallInputs) (ev : Event) :
    ev ∈ syncVendorEvents i ↔
      (i.workspaceVendorDirExists = true ∧ ev = Event.removeDir i.workspaceVendorDir)
      ∨ ev = Event.copyDir (joinPath i.layerPath "vendor") i.workspaceVendorDir := by
  unfold syncVendorEvents
  by_cases h : i.workspaceVendorDirExists = true <;> simp [h]

theorem cacheHitBranch_cases (i : InstallInputs) :
    (runOnCacheDecision i.bpRunComposerInstall = Except.ok true ∧
      ((∃ e, i.installExecResult = some e ∧
          cacheHitBranch i = ([Event.exec ExecKind.install (installExecSpec i)],
            Except.error (RunError.execFailed e)))
       ∨ (i.installExecResult = none ∧
          cacheHitBranch i = (Event.exec ExecKind.install (installExecSpec i)
              :: syncVendorEvents i,
            Except.ok { layer := hitLayer i, cacheHit := true }))))
    ∨ (runOnCacheDecision i.bpRunComposerInstall = Except.ok false ∧
        cacheHitBranch i = (syncVendorEvents i,
          Except.ok { layer := hitLayer i, cacheHit := true }))
    ∨ (∃ err, runOnCacheDecision i.bpRunComposerInstall = Except.error err ∧
        cacheHitBranch i = ([], Except.error err)) := by
  unfold cacheHitBranch
  cases hdec : runOnCacheDecision i.bpRunComposerInstall with
  | error err => exact Or.inr (Or.inr ⟨err, rfl, rfl⟩)
  | ok b =>
    cases b with
    | false => exact Or.inr (Or.inl ⟨rfl, rfl⟩)
    | true =>
      cases hres : i.installExecResult with
      | some e => exact Or.inl ⟨rfl, Or.inl ⟨e, rfl, rfl⟩⟩
      | none => exact Or.inl ⟨rfl, Or.inr ⟨rfl, rfl⟩⟩

theorem freshBranch_cases (i : InstallInputs) :
    (∃ e, i.configExecResult = some e ∧
       freshBranch i = ([Event.resetLayer ComposerPackagesLayerName,
                         Event.exec ExecKind.config (configExecSpec i)],
                        Except.error (RunError.execFailed e)))
    ∨ (i.configExecResult = none ∧ ∃ e, i.installExecResult = some e ∧
       freshBranch i = ([Event.resetLayer ComposerPackagesLayerName,
                         Event.exec ExecKind.config (configExecSpec i),
                         Event.exec ExecKind.install (installExecSpec i)],
                        Except.error (RunError.execFailed e)))
    ∨ (i.configExecResult = none ∧ i.installExecResult = none ∧
       freshBranch i = ([Event.resetLayer ComposerPackagesLayerName,
                         Event.exec ExecKind.config (configExecSpec i),
                         Event.exec ExecKind.install (installExecSpec i),
                         Event.copyDir i.workspaceVendorDir (joinPath i.layerPath "vendor")],
                        Except.ok { layer := freshLayer i, cacheHit := false })) := by
  unfold freshBranch
  cases hcfg : i.configExecResult with
  | some e => exact Or.inl ⟨e, rfl, rfl⟩
  | none =>
    cases hres : i.installExecResult with
    | some e => exact Or.inr (Or.inl ⟨rfl, e, rfl, rfl⟩)
    | none => exact Or.inr (Or.inr ⟨rfl, rfl, rfl⟩)

theorem runComposerGlobalIfRequired_some (g : GlobalInputs) (s : String)
    (h : g.bpComposerInstallGlobal = some s) :
    runComposerGlobalIfRequired g
      = ([Event.resetLayer ComposerGlobalLayerName,
          Event.exec ExecKind.globalRequire
            { args := ["global", "require", "--no-progress"]
                ++ (goSplit ' ' s.data).map String.mk
              dir := g.globalLayerPath
              env := globalEnv g }],
         match g.execResult with
         | some e => Except.error (RunError.execFailed e)
         | none => Except.ok (joinPath (joinPath g.globalLayerPath "vendor") "bin")) := by
  unfold runComposerGlobalIfRequired
  rw [h]
  cases g.execResult <;> rfl

/-- Every exec event of `runComposerInstall` is the config execution or the
install execution. -/
theorem exec_events_install {i : InstallInputs} {k : ExecKind} {ex : Execution}
    (hmem : Event.exec k ex ∈ (runComposerInstall i).1) :
    (k = ExecKind.config ∧ ex = configExecSpec i)
    ∨ (k = ExecKind.install ∧ ex = installExecSpec i) := by
  unfold runComposerInstall at hmem
  split at hmem
  · simp at hmem
  · split at hmem
    · rcases cacheHitBranch_cases i with ⟨_, ⟨e, _, heq⟩ | ⟨_, heq⟩⟩ | ⟨_, heq⟩ | ⟨err, _, heq⟩ <;>
        rw [heq] at hmem
      · have h := List.mem_singleton.mp hmem
        injection h with hk hex
        exact Or.inr ⟨hk, hex⟩
      · rcases List.mem_cons.mp hmem with h | h
        · injection h with hk hex
          exact Or.inr ⟨hk, hex⟩
        · rcases (mem_syncVendorEvents i _).mp h with ⟨_, h2⟩ | h2 <;> simp at h2
      · rcases (mem_syncVendorEvents i _).mp hmem with ⟨_, h2⟩ | h2 <;> simp at h2
      · simp at hmem
    · rcases freshBranch_cases i with ⟨e, _, heq⟩ | ⟨_, e, _, heq⟩ | ⟨_, _, heq⟩ <;>
        rw [heq] at hmem <;> simp only [List.mem_cons, List.mem_singleton] at hmem
      · rcases hmem with h | h | h
        · simp at h
        · injection h with hk hex
          exact Or.inl ⟨hk, hex⟩
        · simp at h
      · rcases hmem with h | h | h | h
        · simp at h
        · injection h with hk hex
          exact Or.inl ⟨hk, hex⟩
        · injection h with hk hex
          exact Or.inr ⟨hk, hex⟩
        · simp at h
      · rcases hmem with h | h | h | h | h
        · simp at h
        · injection h with hk hex
          exact Or.inl ⟨hk, hex⟩
        · injection h with hk hex
          exact Or.inr ⟨hk, hex⟩
        · simp at h
        · simp at h

/-- Every exec event of `runComposerGlobalIfRequired` is the global-require
execution. -/
theorem exec_events_global {g : GlobalInputs} {k : ExecKind} {ex : Execution}
    (hmem : Event.exec k ex ∈ (runComposerGlobalIfRequired g).1) :
    k = ExecKind.globalRequire ∧ ex.env = globalEnv g := by
  cases hpkg : g.bpComposerInstallGlobal with
  | none =>
    have hrun : runComposerGlobalIfRequired g = ([], Except.ok "") := by
      unfold runComposerGlobalIfRequired
      rw [hpkg]
    rw [hrun] at hmem
    simp at hmem
  | some s =>
    rw [runComposerGlobalIfRequired_some g s hpkg] at hmem
    rcases List.mem_cons.mp hmem with h | h
    · simp at h
    · have h2 := List.mem_singleton.mp h
      injection h2 with hk hex
      exact ⟨hk, by rw [hex]⟩

/-- Every exec event of `runCheckPlatformReqs` is the diagnostic execution. -/
theorem exec_events_check {c : CheckInputs} {k : ExecKind} {ex : Execution}
    (hmem : Event.exec k ex ∈ (runCheckPlatformReqs c).1) :
    k = ExecKind.checkPlatformReqs
    ∧ ex = { args := ["check-platform-reqs"], dir := c.workingDir, env := checkEnv c } := by
  have hrep : ∀ evs, (checkReport c evs).1
      = evs ++ [Event.writeFile
          (joinPath (joinPath c.workingDir ".php.ini.d") "composer-extensions.ini")
          (extensionsIni (parseExtensions c.capturedOutput))] := fun _ => rfl
  have hfin : Event.exec k ex ∈ [Event.exec ExecKind.checkPlatformReqs
        { args := ["check-platform-reqs"], dir := c.workingDir, env := checkEnv c }]
      ++ [Event.writeFile
          (joinPath (joinPath c.workingDir ".php.ini.d") "composer-extensions.ini")
          (extensionsIni (parseExtensions c.capturedOutput))] →
      k = ExecKind.checkPlatformReqs
      ∧ ex = { args := ["check-platform-reqs"], dir := c.workingDir, env := checkEnv c } := by
    intro hm
    rcases List.mem_append.mp hm with h | h
    · have h2 := List.mem_singleton.mp h
      injection h2 with hk hex
      exact ⟨hk, hex⟩
    · have h2 := List.mem_singleton.mp h
      simp at h2
  cases hres : c.execResult with
  | none =>
    have hrun : runCheckPlatformReqs c
        = checkReport c [Event.exec ExecKind.checkPlatformReqs
            { args := ["check-platform-reqs"], dir := c.workingDir, env := checkEnv c }] := by
      unfold runCheckPlatformReqs
      rw [hres]
    rw [hrun, hrep] at hmem
    exact hfin hmem
  | some e =>
    rcases eq_or_ne e (ExecErr.exit 2) with he | he
    · rw [runCheckPlatformReqs_some c e hres, he, if_pos rfl, hrep] at hmem
      exact hfin hmem
    · rw [runCheckPlatformReqs_some c e hres, if_neg he] at hmem
      have h2 := List.mem_singleton.mp hmem
      injection h2 with hk hex
      exact ⟨hk, hex⟩

/-! ## Claim theorems -/

/-- Claim C1: provided the stored `stack` value does not have a wrong dynamic
type (the case settled separately as a code bug), the cached layer is reused
— the cache-hit branch runs and the layer is never reset — if and only if the
stored `composer-lock-sha` metadata equals the checksum of the current
lockfile and the stored `stack` metadata equals the current stack; if either
comparison fails, including a missing value, the fresh-build branch resets
the layer instead. -/
theorem claim1_cache_decision (i : InstallInputs)
    (hwt : i.metadata.stack ≠ some MetaVal.other) :
    (cacheHitCond i.metadata i.lockChecksum i.currentStack = true
      ↔ i.metadata.composerLockSha = some (MetaVal.str i.lockChecksum)
        ∧ i.metadata.stack = some (MetaVal.str i.currentStack))
    ∧ (cacheHitCond i.metadata i.lockChecksum i.currentStack = true →
        Event.resetLayer ComposerPackagesLayerName ∉ (runComposerInstall i).1
        ∧ ∀ r, (runComposerInstall i).2 = Except.ok r → r.cacheHit = true)
    ∧ (cacheHitCond i.metadata i.lockChecksum i.currentStack = false →
        Event.resetLayer ComposerPackagesLayerName ∈ (runComposerInstall i).1
        ∧ ∀ r, (runComposerInstall i).2 = Except.ok r → r.cacheHit = false) := by
  refine ⟨cacheHitCond_iff _ _ _, ?_, ?_⟩
  · intro hc
    rw [runComposerInstall_of_hit i hwt hc]
    rcases cacheHitBranch_cases i with ⟨_, ⟨e, _, heq⟩ | ⟨_, heq⟩⟩ | ⟨_, heq⟩ | ⟨err, _, heq⟩ <;>
      rw [heq] <;> constructor
    · simp
    · intro r hr
      simp at hr
    · simp [mem_syncVendorEvents]
    · intro r hr
      injection hr with h2
      subst h2
      rfl
    · simp [mem_syncVendorEvents]
    · intro r hr
      injection hr with h2
      subst h2
      rfl
    · simp
    · intro r hr
      simp at hr
  · intro hc
    rw [runComposerInstall_of_fresh i hwt hc]
    rcases freshBranch_cases i with ⟨e, _, heq⟩ | ⟨_, e, _, heq⟩ | ⟨_, _, heq⟩ <;>
      rw [heq] <;> constructor
    · simp
    · intro r hr
      simp at hr
    · simp
    · intro r hr
      simp at hr
    · simp
    · intro r hr
      injection hr with h2
      subst h2
      rfl

/-- Claim C6 (code bug): the spec requires a wrong-typed metadata value to be
treated as "no prior cache", never a crash; the code does so for
`composer-lock-sha` (comma-ok assertion, line 256) but for a present
non-string `stack` value the unchecked type assertion `stack.(string)` in
the debug log at build.go line 252 (evaluated eagerly regardless of log
level, and again in the comparison at line 257) panics.  This theorem
evaluates the embedded build step at such a metadata record. -/
theorem claim6_wrong_typed_stack_panics :
    runComposerInstall
      { metadata := { stack := some MetaVal.other
                      composerLockSha := some (MetaVal.str "sha-1") }
        layerPath := "/layers/composer-packages"
        currentStack := "io.buildpacks.stacks.jammy"
        lockChecksum := "sha-1"
        composerJsonPath := "/workspace/composer.json"
        workingDir := "/workspace"
        workspaceVendorDir := "/workspace/vendor"
        phpIniPath := "/layers/php-ini/composer-php.ini"
        path := "/usr/bin"
        ambientEnv := []
        bpRunComposerInstall := none
        launch := true
        build := true
        workspaceVendorDirExists := false
        configExecResult := none
        installExecResult := none
        installOptions := ["--no-progress", "--no-dev"] }
      = ([], Except.error RunError.goPanic) := rfl

/-- Witness for C1 at a concrete cache-hit input. -/
theorem claim1_cache_decision_witness :
    sampleHitInputs.metadata.stack ≠ some MetaVal.other
    ∧ (cacheHitCond sampleHitInputs.metadata sampleHitInputs.lockChecksum
          sampleHitInputs.currentStack = true
        ↔ sampleHitInputs.metadata.composerLockSha
              = some (MetaVal.str sampleHitInputs.lockChecksum)
          ∧ sampleHitInputs.metadata.stack
              = some (MetaVal.str sampleHitInputs.currentStack)) :=
  ⟨by decide, (claim1_cache_decision sampleHitInputs (by decide)).1⟩

/-- Claim C2: on a cache hit, when the reinstall override is absent or
parses to `true`, the install sub-command is executed again; when it parses
to `false` the install sub-command is never executed and the cached layer's
vendor directory is copied over the workspace dependency directory, the run
succeeding with the cached layer. -/
theorem claim2_reinstall_override (i : InstallInputs)
    (hwt : i.metadata.stack ≠ some MetaVal.other)
    (hc : cacheHitCond i.metadata i.lockChecksum i.currentStack = true) :
    ((i.bpRunComposerInstall = none
        ∨ ∃ s, i.bpRunComposerInstall = some s ∧ parseBool s = some true) →
      Event.exec ExecKind.install (installExecSpec i) ∈ (runComposerInstall i).1)
    ∧ (∀ s, i.bpRunComposerInstall = some s → parseBool s = some false →
        (∀ ex, Event.exec ExecKind.install ex ∉ (runComposerInstall i).1)
        ∧ Event.copyDir (joinPath i.layerPath "vendor") i.workspaceVendorDir
            ∈ (runComposerInstall i).1
        ∧ (runComposerInstall i).2
            = Except.ok { layer := hitLayer i, cacheHit := true }) := by
  rw [runComposerInstall_of_hit i hwt hc]
  constructor
  · intro hov
    have hdec : runOnCacheDecision i.bpRunComposerInstall = Except.ok true := by
      rcases hov with h | ⟨s, hs, hp⟩
      · rw [h]
        rfl
      · rw [hs, runOnCacheDecision_some, hp]
    rcases cacheHitBranch_cases i with ⟨hd, ⟨e, _, heq⟩ | ⟨_, heq⟩⟩ | ⟨hd, heq⟩ | ⟨err, hd, heq⟩
    · rw [heq]
      simp
    · rw [heq]
      simp
    · rw [hdec] at hd
      simp at hd
    · rw [hdec] at hd
      simp at hd
  · intro s hs hp
    have hdec : runOnCacheDecision i.bpRunComposerInstall = Except.ok false := by
      rw [hs, runOnCacheDecision_some, hp]
    rcases cacheHitBranch_cases i with ⟨hd, _⟩ | ⟨hd, heq⟩ | ⟨err, hd, heq⟩
    · rw [hdec] at hd
      simp at hd
    · rw [heq]
      refine ⟨?_, ?_, rfl⟩
      · intro ex
        simp [mem_syncVendorEvents]
      · simp [mem_syncVendorEvents]
    · rw [hdec] at hd
      simp at hd

/-- Witness for C2: with the override set to `"false"` on a cache hit, no
install execution appears in the trace and the cached vendor directory is
copied into the workspace. -/
theorem claim2_reinstall_override_witness :
    cacheHitCond sampleOverrideFalseInputs.metadata sampleOverrideFalseInputs.lockChecksum
        sampleOverrideFalseInputs.currentStack = true
    ∧ ((∀ ex, Event.exec ExecKind.install ex ∉ (runComposerInstall sampleOverrideFalseInputs).1)
        ∧ Event.copyDir (joinPath sampleOverrideFalseInputs.layerPath "vendor")
            sampleOverrideFalseInputs.workspaceVendorDir
            ∈ (runComposerInstall sampleOverrideFalseInputs).1
        ∧ (runComposerInstall sampleOverrideFalseInputs).2
            = Except.ok { layer := hitLayer sampleOverrideFalseInputs, cacheHit := true }) :=
  ⟨by decide,
   (claim2_reinstall_override sampleOverrideFalseInputs (by decide) (by decide)).2
     "false" (by decide) (by decide)⟩

/-- Claim C3: on every cache hit that completes successfully — whatever the
override value — the trace ends with the copy of the cached layer's vendor
directory into the workspace dependency directory, immediately preceded by
the deletion of that directory when it already existed. -/
theorem claim3_vendor_sync (i : InstallInputs)
    (hwt : i.metadata.stack ≠ some MetaVal.other)
    (hc : cacheHitCond i.metadata i.lockChecksum i.currentStack = true)
    (r : InstallResult)
    (hok : (runComposerInstall i).2 = Except.ok r) :
    ∃ pre, (runComposerInstall i).1
      = pre ++ (if i.workspaceVendorDirExists
                then [Event.removeDir i.workspaceVendorDir,
                      Event.copyDir (joinPath i.layerPath "vendor") i.workspaceVendorDir]
                else [Event.copyDir (joinPath i.layerPath "vendor") i.workspaceVendorDir]) := by
  rw [runComposerInstall_of_hit i hwt hc] at hok ⊢
  have hsync : syncVendorEvents i
      = (if i.workspaceVendorDirExists
         then [Event.removeDir i.workspaceVendorDir,
               Event.copyDir (joinPath i.layerPath "vendor") i.workspaceVendorDir]
         else [Event.copyDir (joinPath i.layerPath "vendor") i.workspaceVendorDir]) := by
    unfold syncVendorEvents
    by_cases h : i.workspaceVendorDirExists = true <;> simp [h]
  rcases cacheHitBranch_cases i with ⟨_, ⟨e, _, heq⟩ | ⟨_, heq⟩⟩ | ⟨_, heq⟩ | ⟨err, _, heq⟩
  · rw [heq] at hok
    simp at hok
  · rw [heq]
    exact ⟨[Event.exec ExecKind.install (installExecSpec i)], by rw [hsync]; rfl⟩
  · rw [heq]
    exact ⟨[], by rw [hsync]; rfl⟩
  · rw [heq] at hok
    simp at hok

/-- Witness for C3 at the concrete cache-hit input with a pre-existing
workspace vendor directory. -/
theorem claim3_vendor_sync_witness :
    cacheHitCond sampleHitInputs.metadata sampleHitInputs.lockChecksum
        sampleHitInputs.currentStack = true
    ∧ ∃ pre, (runComposerInstall sampleHitInputs).1
      = pre ++ (if sampleHitInputs.workspaceVendorDirExists
                then [Event.removeDir sampleHitInputs.workspaceVendorDir,
                      Event.copyDir (joinPath sampleHitInputs.layerPath "vendor")
                        sampleHitInputs.workspaceVendorDir]
                else [Event.copyDir (joinPath sampleHitInputs.layerPath "vendor")
                        sampleHitInputs.workspaceVendorDir]) :=
  ⟨by decide,
   claim3_vendor_sync sampleHitInputs (by decide) (by decide)
     { layer := hitLayer sampleHitInputs, cacheHit := true } rfl⟩

/-- Claim C5: exit status 2 from the diagnostic sub-command is not treated
as a failure (the report is still produced); any other failure of any
sub-command — check-platform-reqs, global-require, configure-autoloader, or
install (fresh or cache-hit re-run) — is surfaced as a fatal error. -/
theorem claim5_exit_codes :
    (∀ c : CheckInputs, c.execResult = some (ExecErr.exit 2) →
        ∃ r, (runCheckPlatformReqs c).2 = Except.ok r)
    ∧ (∀ (c : CheckInputs) (e : ExecErr), c.execResult = some e → e ≠ ExecErr.exit 2 →
        (runCheckPlatformReqs c).2 = Except.error (RunError.execFailed e))
    ∧ (∀ (g : GlobalInputs) (s : String) (e : ExecErr),
        g.bpComposerInstallGlobal = some s → g.execResult = some e →
        (runComposerGlobalIfRequired g).2 = Except.error (RunError.execFailed e))
    ∧ (∀ (i : InstallInputs) (e : ExecErr), i.metadata.stack ≠ some MetaVal.other →
        cacheHitCond i.metadata i.lockChecksum i.currentStack = false →
        i.configExecResult = some e →
        (runComposerInstall i).2 = Except.error (RunError.execFailed e))
    ∧ (∀ (i : InstallInputs) (e : ExecErr), i.metadata.stack ≠ some MetaVal.other →
        cacheHitCond i.metadata i.lockChecksum i.currentStack = false →
        i.configExecResult = none → i.installExecResult = some e →
        (runComposerInstall i).2 = Except.error (RunError.execFailed e))
    ∧ (∀ (i : InstallInputs) (e : ExecErr), i.metadata.stack ≠ some MetaVal.other →
        cacheHitCond i.metadata i.lockChecksum i.currentStack = true →
        runOnCacheDecision i.bpRunComposerInstall = Except.ok true →
        i.installExecResult = some e →
        (runComposerInstall i).2 = Except.error (RunError.execFailed e)) := by
  refine ⟨?_, ?_, ?_, ?_, ?_, ?_⟩
  · intro c hres
    rw [runCheckPlatformReqs_some c _ hres, if_pos rfl]
    exact ⟨_, rfl⟩
  · intro c e hres hne
    rw [runCheckPlatformReqs_some c e hres, if_neg hne]
  · intro g s e hpkg hres
    unfold runComposerGlobalIfRequired
    rw [hpkg, hres]
  · intro i e hwt hc hcfg
    rw [runComposerInstall_of_fresh i hwt hc]
    rcases freshBranch_cases i with ⟨e2, hcfg2, heq⟩ | ⟨hcfg2, _⟩ | ⟨hcfg2, _⟩
    · rw [heq]
      have he : e2 = e := by
        rw [hcfg] at hcfg2
        exact (Option.some.injEq _ _ ▸ hcfg2).symm
      rw [he]
    · rw [hcfg] at hcfg2
      simp at hcfg2
    · rw [hcfg] at hcfg2
      simp at hcfg2
  · intro i e hwt hc hcfg hres
    rw [runComposerInstall_of_fresh i hwt hc]
    rcases freshBranch_cases i with ⟨e2, hcfg2, _⟩ | ⟨_, e2, hres2, heq⟩ | ⟨_, hres2, _⟩
    · rw [hcfg] at hcfg2
      simp at hcfg2
    · rw [heq]
      have he : e2 = e := by
        rw [hres] at hres2
        exact (Option.some.injEq _ _ ▸ hres2).symm
      rw [he]
    · rw [hres] at hres2
      simp at hres2
  · intro i e hwt hc hdec hres
    rw [runComposerInstall_of_hit i hwt hc]
    rcases cacheHitBranch_cases i with ⟨hd, ⟨e2, hres2, heq⟩ | ⟨hres2, _⟩⟩ | ⟨hd, _⟩ | ⟨err, hd, _⟩
    · rw [heq]
      have he : e2 = e := by
        rw [hres] at hres2
        exact (Option.some.injEq _ _ ▸ hres2).symm
      rw [he]
    · rw [hres] at hres2
      simp at hres2
    · rw [hdec] at hd
      simp at hd
    · rw [hdec] at hd
      simp at hd

/-- Witness for C5: a concrete diagnostic run exiting with status 2 still
produces a report. -/
theorem claim5_exit_codes_witness :
    sampleCheckInputs.execResult = some (ExecErr.exit 2)
    ∧ ∃ r, (runCheckPlatformReqs sampleCheckInputs).2 = Except.ok r :=
  ⟨by decide, claim5_exit_codes.1 sampleCheckInputs (by decide)⟩

/-- Any successful diagnostic run returns the parsed report and records the
file write of its rendered contents. -/
theorem runCheckPlatformReqs_report (c : CheckInputs) (r : CheckResult)
    (hok : (runCheckPlatformReqs c).2 = Except.ok r) :
    r = { extensions := parseExtensions c.capturedOutput
          iniPath := joinPath (joinPath c.workingDir ".php.ini.d") "composer-extensions.ini"
          iniContent := extensionsIni (parseExtensions c.capturedOutput) }
    ∧ Event.writeFile r.iniPath r.iniContent ∈ (runCheckPlatformReqs c).1 := by
  have hreport : ∀ evs : List Event,
      (checkReport c evs).2
        = Except.ok { extensions := parseExtensions c.capturedOutput
                      iniPath := joinPath (joinPath c.workingDir ".php.ini.d")
                        "composer-extensions.ini"
                      iniContent := extensionsIni (parseExtensions c.capturedOutput) } :=
    fun _ => rfl
  cases hres : c.execResult with
  | none =>
    have hrun : runCheckPlatformReqs c
        = checkReport c [Event.exec ExecKind.checkPlatformReqs
            { args := ["check-platform-reqs"], dir := c.workingDir, env := checkEnv c }] := by
      unfold runCheckPlatformReqs
      rw [hres]
    rw [hrun] at hok ⊢
    rw [hreport] at hok
    injection hok with h2
    subst h2
    exact ⟨rfl, by simp [checkReport]⟩
  | some e =>
    rcases eq_or_ne e (ExecErr.exit 2) with he | he
    · have hrun : runCheckPlatformReqs c
          = checkReport c [Event.exec ExecKind.checkPlatformReqs
              { args := ["check-platform-reqs"], dir := c.workingDir, env := checkEnv c }] := by
        rw [runCheckPlatformReqs_some c e hres, he, if_pos rfl]
      rw [hrun] at hok ⊢
      rw [hreport] at hok
      injection hok with h2
      subst h2
      exact ⟨rfl, by simp [checkReport]⟩
    · rw [runCheckPlatformReqs_some c e hres, if_neg he] at hok
      simp at hok

/-- Claim C9: a failed install never produces a partially-stamped cache.  On
the fresh-build path, any configure or install failure aborts the run with an
error and no layer; a successful fresh run implies both sub-commands
succeeded, and only such a run returns the layer stamped with the new stack
and checksum metadata; on the cache-hit path the returned layer carries the
prior metadata unchanged. -/
theorem claim9_metadata_stamping :
    (∀ i : InstallInputs, i.metadata.stack ≠ some MetaVal.other →
        cacheHitCond i.metadata i.lockChecksum i.currentStack = false →
        (i.configExecResult ≠ none ∨ i.installExecResult ≠ none) →
        ∃ e, (runComposerInstall i).2 = Except.error e)
    ∧ (∀ (i : InstallInputs) (r : InstallResult), i.metadata.stack ≠ some MetaVal.other →
        cacheHitCond i.metadata i.lockChecksum i.currentStack = false →
        (runComposerInstall i).2 = Except.ok r →
        i.configExecResult = none ∧ i.installExecResult = none
        ∧ r.layer.metadata = { stack := some (MetaVal.str i.currentStack)
                               composerLockSha := some (MetaVal.str i.lockChecksum) })
    ∧ (∀ (i : InstallInputs) (r : InstallResult), i.metadata.stack ≠ some MetaVal.other →
        cacheHitCond i.metadata i.lockChecksum i.currentStack = true →
        (runComposerInstall i).2 = Except.ok r →
        r.layer.metadata = i.metadata) := by
  refine ⟨?_, ?_, ?_⟩
  · intro i hwt hc hfail
    rw [runComposerInstall_of_fresh i hwt hc]
    rcases freshBranch_cases i with ⟨e, _, heq⟩ | ⟨_, e, _, heq⟩ | ⟨hcfg, hres, _⟩
    · rw [heq]
      exact ⟨_, rfl⟩
    · rw [heq]
      exact ⟨_, rfl⟩
    · rcases hfail with hf | hf
      · exact absurd hcfg hf
      · exact absurd hres hf
  · intro i r hwt hc hok
    rw [runComposerInstall_of_fresh i hwt hc] at hok
    rcases freshBranch_cases i with ⟨e, _, heq⟩ | ⟨_, e, _, heq⟩ | ⟨hcfg, hres, heq⟩
    · rw [heq] at hok
      simp at hok
    · rw [heq] at hok
      simp at hok
    · rw [heq] at hok
      injection hok with h2
      subst h2
      exact ⟨hcfg, hres, rfl⟩
  · intro i r hwt hc hok
    rw [runComposerInstall_of_hit i hwt hc] at hok
    rcases cacheHitBranch_cases i with ⟨_, ⟨e, _, heq⟩ | ⟨_, heq⟩⟩ | ⟨_, heq⟩ | ⟨err, _, heq⟩ <;>
      rw [heq] at hok
    · simp at hok
    · injection hok with h2
      subst h2
      rfl
    · injection hok with h2
      subst h2
      rfl
    · simp at hok

/-- Witness for C9 at concrete inputs: a failing fresh install yields an
error, and a completed cache hit leaves the prior metadata in place. -/
theorem claim9_metadata_stamping_witness :
    (∃ e, (runComposerInstall
        { sampleFreshInputs with installExecResult := some ExecErr.nonExit }).2
      = Except.error e)
    ∧ ((runComposerInstall sampleHitInputs).2
          = Except.ok { layer := hitLayer sampleHitInputs, cacheHit := true }
        ∧ (hitLayer sampleHitInputs).metadata = sampleHitInputs.metadata) :=
  ⟨claim9_metadata_stamping.1
      { sampleFreshInputs with installExecResult := some ExecErr.nonExit }
      (by decide) (by decide) (by decide),
   rfl,
   claim9_metadata_stamping.2.2 sampleHitInputs
      { layer := hitLayer sampleHitInputs, cacheHit := true } (by decide) (by decide) rfl⟩

/-- Claim C10: when no line of the captured diagnostic output has `missing`
as its last whitespace-delimited token (for example, empty output), a
successful diagnostic phase reports exactly the baseline openssl extension
and writes a configuration file consisting of the single line
`extension = openssl.so`. -/
theorem claim10_no_missing_baseline (c : CheckInputs) (r : CheckResult)
    (hok : (runCheckPlatformReqs c).2 = Except.ok r)
    (hnone : ∀ line ∈ goSplit '\n' c.capturedOutput.data,
      lastWsToken line ≠ some "missing".data) :
    r.extensions = [opensslExtension]
    ∧ r.iniContent = "extension = openssl.so\n"
    ∧ Event.writeFile r.iniPath "extension = openssl.so\n" ∈ (runCheckPlatformReqs c).1 := by
  obtain ⟨hr, hmem⟩ := runCheckPlatformReqs_report c r hok
  have hbase := parseExtensions_baseline hnone
  have hini : r.iniContent = "extension = openssl.so\n" := by
    rw [hr]
    show extensionsIni (parseExtensions c.capturedOutput) = _
    rw [hbase]
    decide
  refine ⟨?_, hini, ?_⟩
  · rw [hr]
    show parseExtensions c.capturedOutput = _
    rw [hbase]
  · rw [← hini]
    exact hmem

/-- Witness for C10 on empty diagnostic output. -/
theorem claim10_no_missing_baseline_witness :
    ((runCheckPlatformReqs { sampleCheckInputs with capturedOutput := "" }).2
        = Except.ok { extensions := [opensslExtension]
                      iniPath := "/workspace/.php.ini.d/composer-extensions.ini"
                      iniContent := "extension = openssl.so\n" })
    ∧ (({ extensions := [opensslExtension]
          iniPath := "/workspace/.php.ini.d/composer-extensions.ini"
          iniContent := "extension = openssl.so\n" : CheckResult }).extensions
          = [opensslExtension]
        ∧ ({ extensions := [opensslExtension]
             iniPath := "/workspace/.php.ini.d/composer-extensions.ini"
             iniContent := "extension = openssl.so\n" : CheckResult }).iniContent
          = "extension = openssl.so\n"
        ∧ Event.writeFile "/workspace/.php.ini.d/composer-extensions.ini"
            "extension = openssl.so\n"
          ∈ (runCheckPlatformReqs { sampleCheckInputs with capturedOutput := "" }).1) :=
  ⟨rfl,
   claim10_no_missing_baseline { sampleCheckInputs with capturedOutput := "" }
     { extensions := [opensslExtension]
       iniPath := "/workspace/.php.ini.d/composer-extensions.ini"
       iniContent := "extension = openssl.so\n" } rfl (by decide)⟩

/-- Counterexample to C4 as stated: the parser splits lines on the single
space character, not on whitespace in general.  For the tab-separated line
`ext-gd[TAB]missing` the first whitespace-delimited token with the `ext-`
prefix stripped is `gd` (which is neither interpreter pseudo-requirement)
and the last whitespace-delimited token is `missing`, so the claim includes
`gd` in the report; the embedded parser excludes it, producing only the
baseline entry. -/
theorem claim4_counterexample :
    trimPrefix "ext-".data (firstWsToken "ext-gd\tmissing".data) = "gd".data
    ∧ lastWsToken "ext-gd\tmissing".data = some "missing".data
    ∧ "gd" ≠ "php" ∧ "gd" ≠ "php-64bit"
    ∧ parseExtensions "ext-gd\tmissing" = [opensslExtension]
    ∧ "gd" ∉ parseExtensions "ext-gd\tmissing" := by decide

/-- Claim C4, amended: with tokens delimited by the space character (the
trimmed line split on single spaces; the name is the first chunk, trimmed,
with the `ext-` prefix stripped; the status is the last chunk, trimmed), the
report contains a name exactly when some line yields it with a status equal
to the literal `missing` and the name is neither `php` nor `php-64bit` —
besides the baseline openssl entry, which is always present.  In particular
`ext-mbstring : missing` yields `mbstring`, while `php : present` and
`ext-openssl : present` are excluded. -/
theorem claim4_amended :
    (∀ (output : String) (name : String),
        name ∈ parseExtensions output ↔
          name = opensslExtension
          ∨ ∃ line ∈ goSplit '\n' output.data,
              extensionName line = name.data
              ∧ extensionName line ≠ "php".data
              ∧ extensionName line ≠ "php-64bit".data
              ∧ extensionStatus line = "missing".data)
    ∧ parseExtensions "ext-mbstring : missing" = [opensslExtension, "mbstring"]
    ∧ parseExtensions "php : present\next-openssl : present" = [opensslExtension] := by
  refine ⟨?_, by decide, by decide⟩
  intro output name
  unfold parseExtensions
  rw [List.mem_cons]
  constructor
  · rintro (h | h)
    · exact Or.inl h
    · right
      obtain ⟨line, hline, hsome⟩ := List.mem_filterMap.mp h
      obtain ⟨cs, hcs, hmk⟩ := Option.map_eq_some'.mp hsome
      unfold missingExtension at hcs
      split at hcs
      · next hcond =>
        injection hcs with hEq
        have hdata : name.data = cs := by rw [← hmk]
        refine ⟨line, hline, ?_, hcond.1, hcond.2.1, hcond.2.2⟩
        rw [hEq, ← hdata]
      · exact absurd hcs (by simp)
  · rintro (h | ⟨line, hline, hname, h1, h2, h3⟩)
    · exact Or.inl h
    · right
      apply List.mem_filterMap.mpr
      refine ⟨line, hline, ?_⟩
      unfold missingExtension
      rw [if_pos ⟨h1, h2, h3⟩, hname]
      rfl

/-- Witness for C4 (amended) at the concrete diagnostic line from the claim. -/
theorem claim4_amended_witness :
    parseExtensions "ext-mbstring : missing" = [opensslExtension, "mbstring"] :=
  claim4_amended.2.1

/-- Counterexample to C7 as stated: with the reinstall override set to the
invalid boolean `"maybe"` on a build with no prior cache, the build does not
fail at all — it completes successfully and the install subprocess runs,
because the override is only parsed on the cache-hit path. -/
theorem claim7_counterexample :
    (Build sampleMaybeBuildInputs).2.isOk = true
    ∧ (Build sampleMaybeBuildInputs).1.any isInstallExec = true := by decide

/-- Claim C7, amended: the reinstall override is consulted only on the
cache-hit path.  There, a value that is not a valid boolean fails the
install phase with an error naming the variable, producing no events — in
particular before the install sub-command or any later action of the phase
runs.  On the fresh-build path the variable is never consulted: the phase
behaves identically whether the invalid value is set or the variable is
absent. -/
theorem claim7_amended :
    (∀ (i : InstallInputs) (s : String), i.metadata.stack ≠ some MetaVal.other →
        cacheHitCond i.metadata i.lockChecksum i.currentStack = true →
        i.bpRunComposerInstall = some s → parseBool s = none →
        runComposerInstall i
          = ([], Except.error (RunError.parseBoolFailed runComposerInstallOnCacheEnv s)))
    ∧ (∀ i : InstallInputs, i.metadata.stack ≠ some MetaVal.other →
        cacheHitCond i.metadata i.lockChecksum i.currentStack = false →
        runComposerInstall i
          = runComposerInstall { i with bpRunComposerInstall := none }) := by
  constructor
  · intro i s hwt hc hs hp
    rw [runComposerInstall_of_hit i hwt hc]
    have hdec : runOnCacheDecision i.bpRunComposerInstall
        = Except.error (RunError.parseBoolFailed runComposerInstallOnCacheEnv s) := by
      rw [hs, runOnCacheDecision_some, hp]
    unfold cacheHitBranch
    rw [hdec]
  · intro i hwt hc
    rw [runComposerInstall_of_fresh i hwt hc,
        runComposerInstall_of_fresh { i with bpRunComposerInstall := none } hwt hc]
    rfl

/-- Witness for C7 (amended): the invalid override on a concrete cache hit
fails with the error naming `BP_RUN_COMPOSER_INSTALL` and an empty trace. -/
theorem claim7_amended_witness :
    cacheHitCond sampleHitInputs.metadata sampleHitInputs.lockChecksum
        sampleHitInputs.currentStack = true
    ∧ runComposerInstall { sampleHitInputs with bpRunComposerInstall := some "maybe" }
        = ([], Except.error (RunError.parseBoolFailed runComposerInstallOnCacheEnv "maybe")) :=
  ⟨by decide,
   claim7_amended.1 { sampleHitInputs with bpRunComposerInstall := some "maybe" }
     "maybe" (by decide) (by decide) (by decide) (by decide)⟩

/-- Counterexample to C8 as stated: the diagnostic (`check-platform-reqs`)
invocation of the tool receives only the non-interactive flag, `PHPRC` and
`PATH` on top of the ambient environment — no home/config directory pinned
into a layer and no dependency-output directory variable — refuting "every
subprocess invocation of the installation tool ... including ... the tool's
home/config directory ... the dependency-output directory location". -/
theorem claim8_counterexample :
    (runCheckPlatformReqs sampleCheckInputs).1
      = [Event.exec ExecKind.checkPlatformReqs
           { args := ["check-platform-reqs"]
             dir := "/workspace"
             env := [("COMPOSER_NO_INTERACTION", "1"),
                     ("PHPRC", "/layers/php-ini/composer-php.ini"),
                     ("PATH", "/usr/bin")] },
         Event.writeFile "/workspace/.php.ini.d/composer-extensions.ini"
           "extension = openssl.so\nextension = mbstring.so\n"]
    ∧ ∀ kv ∈ checkEnv sampleCheckInputs,
        kv.1 ≠ "COMPOSER_HOME" ∧ kv.1 ≠ "COMPOSER_VENDOR_DIR" := by decide

/-- Claim C8, amended: every subprocess environment is the ambient process
environment with explicit keys appended.  The config and install executions
append the non-interactive flag, the manifest path, `COMPOSER_HOME` pinned
inside the packages layer, the dependency-output directory (the in-layer
default for config, the workspace vendor directory for install), the
interpreter configuration file path and the search path; the global-require
execution pins `COMPOSER_HOME` to the global layer; the check-platform-reqs
execution appends only the non-interactive flag, the interpreter
configuration path and the search path.  At the build level, every phase
after the global step receives the search path with the global bin directory
prefixed when present. -/
theorem claim8_amended :
    (∀ (i : InstallInputs) (k : ExecKind) (ex : Execution),
        Event.exec k ex ∈ (runComposerInstall i).1 →
        ex.env = i.ambientEnv ++
            [("COMPOSER_NO_INTERACTION", "1"),
             ("COMPOSER", i.composerJsonPath),
             ("COMPOSER_HOME", joinPath i.layerPath ".composer"),
             ("COMPOSER_VENDOR_DIR",
              if k = ExecKind.config then "vendor" else i.workspaceVendorDir),
             ("PHPRC", i.phpIniPath),
             ("PATH", i.path)])
    ∧ (∀ (g : GlobalInputs) (k : ExecKind) (ex : Execution),
        Event.exec k ex ∈ (runComposerGlobalIfRequired g).1 →
        ex.env = g.ambientEnv ++
            [("COMPOSER_NO_INTERACTION", "1"),
             ("COMPOSER_HOME", g.globalLayerPath),
             ("PHPRC", g.phpIniPath),
             ("COMPOSER_VENDOR_DIR", "vendor"),
             ("PATH", g.path)])
    ∧ (∀ (c : CheckInputs) (k : ExecKind) (ex : Execution),
        Event.exec k ex ∈ (runCheckPlatformReqs c).1 →
        ex.env = c.ambientEnv ++
            [("COMPOSER_NO_INTERACTION", "1"),
             ("PHPRC", c.phpIniPath),
             ("PATH", c.path)])
    ∧ (∀ (b : BuildInputs) (bin : String) (k : ExecKind) (ex : Execution),
        (runComposerGlobalIfRequired (globalInputsOf b)).2 = Except.ok bin →
        Event.exec k ex ∈ (Build b).1 → k ≠ ExecKind.globalRequire →
        ("PATH", effectivePath b bin) ∈ ex.env) := by
  refine ⟨?_, ?_, ?_, ?_⟩
  · intro i k ex hmem
    rcases exec_events_install hmem with ⟨hk, hex⟩ | ⟨hk, hex⟩ <;> subst hk <;> subst hex <;>
      simp [configExecSpec, installExecSpec, installPhaseEnv]
  · intro g k ex hmem
    obtain ⟨hk, henv⟩ := exec_events_global hmem
    rw [henv]
    rfl
  · intro c k ex hmem
    obtain ⟨hk, hex⟩ := exec_events_check hmem
    subst hex
    rfl
  · intro b bin k ex hg hmem hk
    have hinst : Event.exec k ex
          ∈ (runComposerInstall (installInputsOf b (effectivePath b bin))).1 →
        ("PATH", effectivePath b bin) ∈ ex.env := by
      intro h
      rcases exec_events_install h with ⟨_, hex⟩ | ⟨_, hex⟩ <;> subst hex <;>
        simp [configExecSpec, installExecSpec, installPhaseEnv, installInputsOf]
    have hcheck : Event.exec k ex
          ∈ (runCheckPlatformReqs (checkInputsOf b (effectivePath b bin))).1 →
        ("PATH", effectivePath b bin) ∈ ex.env := by
      intro h
      obtain ⟨_, hex⟩ := exec_events_check h
      subst hex
      simp [checkEnv, checkInputsOf]
    unfold Build at hmem
    split at hmem
    · next gEvents e heq =>
      rw [heq] at hg
      simp at hg
    · next gEvents bin2 heq =>
      rw [heq] at hg
      have hbin : bin2 = bin := by
        injection hg
      subst hbin
      have hglobal : Event.exec k ex ∉ gEvents := by
        intro h
        have h2 : Event.exec k ex ∈ (runComposerGlobalIfRequired (globalInputsOf b)).1 := by
          rw [heq]
          exact h
        exact hk (exec_events_global h2).1
      split at hmem
      · next iEvents e heqI =>
        have hm : Event.exec k ex ∈ gEvents ++ iEvents := hmem
        rcases List.mem_append.mp hm with h | h
        · exact absurd h hglobal
        · apply hinst
          rw [heqI]
          exact h
      · next iEvents ir heqI =>
        split at hmem
        · next cEvents e heqC =>
          have hm : Event.exec k ex ∈ gEvents ++ iEvents ++ cEvents := hmem
          rcases List.mem_append.mp hm with h | h
          · rcases List.mem_append.mp h with h2 | h2
            · exact absurd h2 hglobal
            · apply hinst
              rw [heqI]
              exact h2
          · apply hcheck
            rw [heqC]
            exact h
        · next cEvents cr heqC =>
          have hm : Event.exec k ex ∈ gEvents ++ iEvents ++ cEvents := hmem
          rcases List.mem_append.mp hm with h | h
          · rcases List.mem_append.mp h with h2 | h2
            · exact absurd h2 hglobal
            · apply hinst
              rw [heqI]
              exact h2
          · apply hcheck
            rw [heqC]
            exact h

/-- Witness for C8 (amended): the concrete diagnostic execution receives
exactly the three appended keys on top of the ambient environment. -/
theorem claim8_amended_witness :
    Event.exec ExecKind.checkPlatformReqs
        { args := ["check-platform-reqs"]
          dir := "/workspace"
          env := [("COMPOSER_NO_INTERACTION", "1"),
                  ("PHPRC", "/layers/php-ini/composer-php.ini"),
                  ("PATH", "/usr/bin")] }
      ∈ (runCheckPlatformReqs sampleCheckInputs).1
    ∧ ({ args := ["check-platform-reqs"]
         dir := "/workspace"
         env := [("COMPOSER_NO_INTERACTION", "1"),
                 ("PHPRC", "/layers/php-ini/composer-php.ini"),
                 ("PATH", "/usr/bin")] : Execution }).env
      = sampleCheckInputs.ambientEnv ++
          [("COMPOSER_NO_INTERACTION", "1"),
           ("PHPRC", sampleCheckInputs.phpIniPath),
           ("PATH", sampleCheckInputs.path)] :=
  ⟨by decide,
   claim8_amended.2.2.1 sampleCheckInputs ExecKind.checkPlatformReqs
     { args := ["check-platform-reqs"]
       dir := "/workspace"
       env := [("COMPOSER_NO_INTERACTION", "1"),
               ("PHPRC", "/layers/php-ini/composer-php.ini"),
               ("PATH", "/usr/bin")] } (by decide)⟩

end Composer
